import Mathlib

/-!
Shallow embedding of the batch enrichment loop of `rss-analyser-v10.py`:
the batch processor `process_batch`, its response validation, and the
orchestrator's persist step (`insert_analysed_entries`, `mark_as_processed`,
commit/rollback) from `main`.

External collaborators (the prompt file on disk, the generative API, the
`json.loads` decoder of the standard library) are passed in as an explicit
environment, so every theorem quantifies over all of their behaviours.
-/

namespace RssAnalyser

/-- JSON values, as produced by the external `json.loads` decoder. -/
inductive Json where
  | null : Json
  | bool : Bool → Json
  | num : Int → Json
  | str : String → Json
  | arr : List Json → Json
  | obj : List (String × Json) → Json

/-- One fetched entry as handed to `process_batch`: the `(id, title, description)`
tuple returned by `fetch_unprocessed_entries`. Nullable columns are `Option`. -/
structure Entry where
  id : Nat
  title : Option String
  description : Option String
deriving Repr, DecidableEq

/-- One row of `analysed_data` as appended by `process_batch` (line 229 of the
source): entry id, translated title, translated description, the keywords list
serialised by `json.dumps`, sentiment and category. -/
structure Row where
  entry_id : Nat
  translated_title : String
  translated_description : String
  keywords_json : String
  sentiment : String
  category : String
deriving Repr, DecidableEq

/-- Escape of a character for `json.dumps` of a string (quote and backslash). -/
def pyJsonEscapeChar (c : Char) : String :=
  if c = '\\' then "\\\\" else if c = '"' then "\\\"" else String.singleton c

/-- Model of `json.dumps` on a list of strings (line 233 of the source). -/
def jsonDumpsList (xs : List String) : String :=
  "[" ++ String.intercalate ", "
    (xs.map (fun s => "\"" ++ String.join (s.toList.map pyJsonEscapeChar) ++ "\"")) ++ "]"

/-- The pydantic model `ArticleResponse`: five optional fields with defaults. -/
structure ArticleResponse where
  translated_title : String
  translated_description : String
  keywords : List String
  sentiment : String
  category : String
deriving Repr, DecidableEq

/-- Validation of one `str`-typed pydantic field: a missing field takes the
default `""`; a present field must be a JSON string, anything else is a
`ValidationError`. -/
def getStrField (fs : List (String × Json)) (name : String) : Except Unit String :=
  match fs.lookup name with
  | none => .ok ""
  | some (.str s) => .ok s
  | some _ => .error ()

/-- Validation of the `keywords : List[str]` pydantic field: missing defaults to
`[]`; a present field must be a JSON array of strings. -/
def getKeywordsField (fs : List (String × Json)) : Except Unit (List String) :=
  match fs.lookup "keywords" with
  | none => .ok []
  | some (.arr xs) =>
      xs.mapM (fun j => match j with | .str s => Except.ok s | _ => Except.error ())
  | some _ => .error ()

/-- Construction `ArticleResponse(**raw_item)` on the fields of a JSON object:
either all five fields validate (missing ones defaulted) or a
`ValidationError` is raised, modelled as `Except.error`. -/
def articleResponseOfFields (fs : List (String × Json)) : Except Unit ArticleResponse :=
  match getStrField fs "translated_title" with
  | .error e => .error e
  | .ok tt =>
    match getStrField fs "translated_description" with
    | .error e => .error e
    | .ok td =>
      match getKeywordsField fs with
      | .error e => .error e
      | .ok kw =>
        match getStrField fs "sentiment" with
        | .error e => .error e
        | .ok se =>
          match getStrField fs "category" with
          | .error e => .error e
          | .ok ca => .ok ⟨tt, td, kw, se, ca⟩

/-- The `entry_map` dictionary built by the rendering loop (lines 156-163),
as an association list from 1-based index to entry id; `k` is the number of
entries already consumed. -/
def entryMapFrom : Nat → List Entry → List (Nat × Nat)
  | _, [] => []
  | k, e :: es => (k + 1, e.id) :: entryMapFrom (k + 1) es

/-- The `entry_map` for a whole batch. -/
def entryMap (entries : List Entry) : List (Nat × Nat) :=
  entryMapFrom 0 entries

/-- One rendered block of `batch_input` for the entry at 0-based index `idx`:
the f-string of line 162, with `"Untitled"` / `"No description"` substituted
for null columns (lines 160-161). -/
def renderBlock (idx : Nat) (e : Entry) : String :=
  "Entry " ++ toString (idx + 1) ++ ":\n- Title: " ++ e.title.getD "Untitled" ++
    "\n- Description: " ++ e.description.getD "No description" ++ "\n\n"

/-- The `batch_input` accumulation of the rendering loop, `k` entries already
consumed. -/
def buildBatchInputFrom : Nat → List Entry → String
  | _, [] => ""
  | k, e :: es => renderBlock k e ++ buildBatchInputFrom (k + 1) es

/-- The full `batch_input` string for a batch. -/
def buildBatchInput (entries : List Entry) : String :=
  buildBatchInputFrom 0 entries

/-- Outcome of processing one decoded item (loop body, lines 217-236):
a validated row is appended, or the item is skipped (`continue`), or a
non-`ValidationError` exception (`**raw_item` on a non-mapping raises
`TypeError`) aborts the loop and is caught by the handler at line 238. -/
inductive ItemStep where
  | okRow (r : Row)
  | skip
  | fatal
deriving Repr, DecidableEq

/-- The body of the item loop for the item at 0-based index `idx`:
`entry_map.get(idx + 1)` followed by the Python falsiness test
`if not entry_id` (which also skips a resolved id equal to 0), then
pydantic validation; a decoded item that is not a JSON object raises
`TypeError` out of the loop. -/
def processItem (entries : List Entry) (idx : Nat) (item : Json) : ItemStep :=
  match (entryMap entries).lookup (idx + 1) with
  | none => .skip
  | some entry_id =>
    if entry_id = 0 then .skip
    else
      match item with
      | .obj fs =>
        match articleResponseOfFields fs with
        | .ok v => .okRow ⟨entry_id, v.translated_title, v.translated_description,
            jsonDumpsList v.keywords, v.sentiment, v.category⟩
        | .error _ => .skip
      | _ => .fatal

/-- The item loop over the decoded slice, accumulating `results`; a fatal
item aborts the loop and the results accumulated so far are what the
`except` handler at line 238 lets `process_batch` return. -/
def processItems (entries : List Entry) : List Json → Nat → List Row → List Row
  | [], _, acc => acc
  | item :: rest, idx, acc =>
    match processItem entries idx item with
    | .okRow r => processItems entries rest (idx + 1) (acc ++ [r])
    | .skip => processItems entries rest (idx + 1) acc
    | .fatal => acc

/-- Whether the item loop runs through a list of items without a fatal item. -/
def noFatal (entries : List Entry) : Nat → List Json → Bool
  | _, [] => true
  | idx, item :: rest =>
    match processItem entries idx item with
    | .fatal => false
    | _ => noFatal entries (idx + 1) rest

/-- Model of Python `str.strip()`: drop whitespace from both ends. -/
def pyStrip (s : String) : String :=
  String.mk (((s.data.dropWhile Char.isWhitespace).reverse.dropWhile Char.isWhitespace).reverse)

/-- Decision that one character list is an initial segment of another. -/
def isInitSeg : List Char → List Char → Bool
  | [], _ => true
  | _ :: _, [] => false
  | a :: as, b :: bs => a == b && isInitSeg as bs

/-- Model of Python `s.startswith(pre)`. -/
def pyStartsWith (s pre : String) : Bool :=
  isInitSeg pre.data s.data

/-- Model of Python `s.endswith(suf)`. -/
def pyEndsWith (s suf : String) : Bool :=
  isInitSeg suf.data.reverse s.data.reverse

/-- Scanner for Python `str.split` with a non-empty separator: left-to-right,
non-overlapping; the fuel bounds the scan by the length of the input and is
never exhausted when the separator is non-empty. -/
def pySplitAux (sep : List Char) : Nat → List Char → List Char → List (List Char)
  | _, [], acc => [acc.reverse]
  | 0, rest, acc => [acc.reverse ++ rest]
  | fuel + 1, c :: cs, acc =>
    if isInitSeg sep (c :: cs) then
      acc.reverse :: pySplitAux sep fuel ((c :: cs).drop sep.length) []
    else
      pySplitAux sep fuel cs (c :: acc)

/-- Model of Python `s.split(sep)` for a non-empty separator. -/
def pySplit (s sep : String) : List String :=
  (pySplitAux sep.data s.data.length s.data []).map String.mk

/-- Concatenation of a list of strings with a separator between them. -/
def joinWith (sep : String) : List String → String
  | [] => ""
  | [x] => x
  | x :: y :: rest => x ++ sep ++ joinWith sep (y :: rest)

/-- Outcome of `open(PROMPT_FILE).read()`: contents, `FileNotFoundError`
(the only exception the source catches, line 150), or any other `OSError`
from an unreadable file, which is not caught there. -/
inductive TemplateResult where
  | found (contents : String)
  | notFound
  | readError
deriving Repr, DecidableEq

/-- Model of `prompt_template.format(entries=batch_input)` for a template
whose only placeholder is `\x7bentries\x7d`. -/
def formatTemplate (tmpl batch_input : String) : String :=
  joinWith batch_input (pySplit tmpl "\x7bentries\x7d")

/-- The response-cleaning step (lines 197-202): strip, drop a leading
markdown fence with language tag, drop a trailing fence, strip again.
Python `s.split(sep)[i]` is rendered with `splitOn`. -/
def stripFences (raw_response : String) : String :=
  let c := pyStrip raw_response
  let c := if pyStartsWith c "```json" then (pySplit c "```json").getD 1 "" else c
  let c := if pyEndsWith c "```" then (pySplit c "```").getD 0 "" else c
  pyStrip c

/-- The retry loop of lines 175-193: attempts are numbered from `attempt`,
`remaining` attempts are left; a failure on the last attempt re-raises. -/
def apiCallWithRetry (f : Nat → Except Unit String) : Nat → Nat → Except Unit String
  | _, 0 => .error ()
  | attempt, remaining + 1 =>
    match f attempt with
    | .ok s => .ok s
    | .error e => if remaining = 0 then .error e else apiCallWithRetry f (attempt + 1) remaining

/-- The external collaborators of `process_batch`: the prompt file, the
generative API (one outcome per attempt number), and the `json.loads`
decoder of the standard library. -/
structure Env where
  template : TemplateResult
  attemptOutcome : Nat → Except Unit String
  jsonLoads : String → Option Json

/-- Number of attempts of the retry loop (`max_retries = 3`, line 175). -/
def max_retries : Nat := 3

/-- Shallow embedding of `process_batch` (lines 137-242). `Except.error`
models an exception escaping the function: the only uncaught site is a
non-`FileNotFoundError` failure while reading the prompt file, everything
from line 169 on is covered by the `except Exception` handler at line 238,
which falls through to `return results`. -/
def process_batch (env : Env) (entries : List Entry) : Except Unit (List Row) :=
  if entries.isEmpty then .ok []
  else
    match env.template with
    | .notFound => .ok []
    | .readError => .error ()
    | .found prompt_template =>
      let batch_input := buildBatchInput entries
      if pyStrip batch_input = "" then .ok []
      else
        let prompt := formatTemplate prompt_template batch_input
        if pyStrip prompt = "" then .ok []
        else
          match apiCallWithRetry env.attemptOutcome 0 max_retries with
          | .error _ => .ok []
          | .ok raw_response =>
            let cleaned := stripFences raw_response
            match env.jsonLoads cleaned with
            | none => .ok []
            | some (.arr data) =>
                .ok (processItems entries (data.take entries.length) 0 [])
            | some _ => .ok []

/-- One row of the `rss_feed_entries` table as the analyser sees it. -/
structure StoreEntry where
  id : Nat
  title : Option String
  description : Option String
  processed : Bool
deriving Repr, DecidableEq

/-- The relational store: the entries table and the `rss_feed_analysed` table. -/
structure Store where
  entries : List StoreEntry
  analysed : List Row
deriving Repr, DecidableEq

/-- Insertion sort by ascending id, modelling `ORDER BY id ASC`. -/
def insertById (e : StoreEntry) : List StoreEntry → List StoreEntry
  | [] => [e]
  | x :: xs => if e.id ≤ x.id then e :: x :: xs else x :: insertById e xs

/-- Sort of the entries table by ascending id. -/
def sortById (l : List StoreEntry) : List StoreEntry :=
  l.foldr insertById []

/-- The configured batch size (`BATCH_SIZE = 10`, line 49). -/
def BATCH_SIZE : Nat := 10

/-- Embedding of `fetch_unprocessed_entries` (lines 65-85): the first
`batch_size` rows with `processed = FALSE` in ascending id order, projected
to `(id, title, description)`. -/
def fetch_unprocessed_entries (s : Store) (batch_size : Nat) : List Entry :=
  ((sortById (s.entries.filter (fun e => !e.processed))).take batch_size).map
    (fun e => ⟨e.id, e.title, e.description⟩)

/-- Embedding of `mark_as_processed` (lines 88-103): set `processed = TRUE`
on every row whose id is in `ids`. -/
def mark_as_processed (s : Store) (ids : List Nat) : Store :=
  { s with entries := (s.entries.map
      (fun e => if e.id ∈ ids then { e with processed := true } else e)) }

/-- Embedding of `insert_analysed_entries` (lines 105-118): append the rows
of `analysed_data` to the `rss_feed_analysed` table. -/
def insert_analysed_entries (s : Store) (analysed_data : List Row) : Store :=
  { s with analysed := s.analysed ++ analysed_data }

/-- A store error during the Persist step, at any of its three statements. -/
inductive DbErr where
  | duringInsert
  | duringMark
  | duringCommit
deriving Repr, DecidableEq

/-- The Persist step of `main` (lines 285-314): inside one transaction,
insert the analysed rows (only when non-empty, line 290), mark the whole
fetched batch processed, commit. A store error anywhere in the step reaches
the handler at line 303, the transaction is rolled back and the store is
left as it was. -/
def persistStep (s : Store) (entry_ids : List Nat) (analysed_data : List Row)
    (err : Option DbErr) : Store :=
  match err with
  | some _ => s
  | none =>
    let s1 := if analysed_data.isEmpty then s else insert_analysed_entries s analysed_data
    mark_as_processed s1 entry_ids

/-- Result of one iteration of the `while True` loop of `main`: continue
with a new store state, or leave the loop. -/
inductive StepResult where
  | next (s : Store)
  | halt (s : Store)
deriving Repr, DecidableEq

/-- One iteration of the main loop (lines 259-314): timeout check, fetch,
process (whose outcome `analysed_data` is a parameter here), then the
Persist step; a database error rolls back and the loop continues to the
next poll. -/
def loopIteration (s : Store) (timedOut : Bool) (analysed_data : List Row)
    (err : Option DbErr) : StepResult :=
  if timedOut then .halt s
  else
    let entries := fetch_unprocessed_entries s BATCH_SIZE
    if entries.isEmpty then .halt s
    else
      let entry_ids := entries.map (·.id)
      .next (persistStep s entry_ids analysed_data err)

/-! ### Concrete fixtures used to evaluate the definitions -/

/-- A sample entry with both columns present. -/
def e1 : Entry := ⟨1, some "A", some "d1"⟩

/-- A sample entry with both columns null. -/
def e2 : Entry := ⟨2, none, none⟩

/-- An entry whose store id is the falsy integer 0. -/
def entry0 : Entry := ⟨0, some "t", some "d"⟩

/-- The row produced for `e1` from an all-defaults response item. -/
def row1 : Row := ⟨1, "", "", "[]", "", ""⟩

/-- An environment whose template holds only the placeholder, whose API call
succeeds at once, and whose decoder yields a one-object array. -/
def envT : Env := ⟨.found "\x7bentries\x7d", fun _ => .ok "x", fun _ => some (.arr [Json.obj []])⟩

/-- An environment whose prompt file is missing. -/
def envNotFound : Env := ⟨.notFound, fun _ => .ok "x", fun _ => none⟩

/-- An environment whose prompt file exists but cannot be read. -/
def envReadErr : Env := ⟨.readError, fun _ => .ok "x", fun _ => none⟩

/-- An environment whose decoder yields valid JSON that is not an array. -/
def envObj : Env := ⟨.found "\x7bentries\x7d", fun _ => .ok "x", fun _ => some (.obj [])⟩

/-- A store holding one unprocessed entry with id 1 and no analysed rows. -/
def store1 : Store := ⟨[⟨1, some "A", some "d1", false⟩], []⟩

/-! ### Lemmas about the rendering map -/

/-- Lookup in the partial entry map built from offset `k`. -/
theorem entryMapFrom_lookup (es : List Entry) :
    ∀ (k i : Nat), (entryMapFrom k es).lookup (k + i + 1) = es[i]?.map Entry.id := by
  induction es with
  | nil => intro k i; simp [entryMapFrom]
  | cons e es ih =>
    intro k i
    cases i with
    | zero => simp [entryMapFrom, List.lookup]
    | succ j =>
      have hne : (k + (j + 1) + 1 == k + 1) = false := by
        rw [beq_eq_false_iff_ne]
        omega
      have := ih (k + 1) j
      simp only [entryMapFrom, List.lookup, hne]
      have harg : k + 1 + j + 1 = k + (j + 1) + 1 := by omega
      rw [harg] at this
      simpa using this

/-- Lookup of a 1-based index in the entry map gives the id of the entry at
the corresponding 0-based position. -/
theorem entryMap_lookup (es : List Entry) (i : Nat) :
    (entryMap es).lookup (i + 1) = es[i]?.map Entry.id := by
  have := entryMapFrom_lookup es 0 i
  simpa [entryMap] using this

/-- In-range lookup of the entry map. -/
theorem entryMap_lookup_of_lt (es : List Entry) (i : Nat) (h : i < es.length) :
    (entryMap es).lookup (i + 1) = some es[i].id := by
  rw [entryMap_lookup, List.getElem?_eq_getElem h, Option.map_some']

/-! ### Lemmas about the item loop -/

/-- Unfolding of the loop body when the entry map has no binding. -/
theorem processItem_none (entries : List Entry) (idx : Nat) (item : Json)
    (hl : (entryMap entries).lookup (idx + 1) = none) :
    processItem entries idx item = .skip := by
  unfold processItem; rw [hl]

/-- Unfolding of the loop body when the entry map resolves the index. -/
theorem processItem_some (entries : List Entry) (idx : Nat) (item : Json) (entry_id : Nat)
    (hl : (entryMap entries).lookup (idx + 1) = some entry_id) :
    processItem entries idx item =
      (if entry_id = 0 then .skip
      else
        match item with
        | .obj fs =>
          match articleResponseOfFields fs with
          | .ok v => .okRow ⟨entry_id, v.translated_title, v.translated_description,
              jsonDumpsList v.keywords, v.sentiment, v.category⟩
          | .error _ => .skip
        | _ => .fatal) := by
  unfold processItem; rw [hl]

/-- Unfolding of the item loop on a validated head item. -/
theorem processItems_cons_ok (entries : List Entry) (item : Json) (rest : List Json)
    (idx : Nat) (acc : List Row) (r : Row) (h : processItem entries idx item = .okRow r) :
    processItems entries (item :: rest) idx acc =
      processItems entries rest (idx + 1) (acc ++ [r]) := by
  simp [processItems, h]

/-- A skipped item contributes nothing and the loop continues with the rest. -/
theorem processItems_cons_skip (entries : List Entry) (item : Json) (rest : List Json)
    (idx : Nat) (acc : List Row) (h : processItem entries idx item = .skip) :
    processItems entries (item :: rest) idx acc = processItems entries rest (idx + 1) acc := by
  simp [processItems, h]

/-- A fatal item aborts the loop with the accumulator as it stands. -/
theorem processItems_cons_fatal (entries : List Entry) (item : Json) (rest : List Json)
    (idx : Nat) (acc : List Row) (h : processItem entries idx item = .fatal) :
    processItems entries (item :: rest) idx acc = acc := by
  simp [processItems, h]

/-- The item loop grows the accumulator by at most one row per item. -/
theorem processItems_length (entries : List Entry) :
    ∀ (items : List Json) (idx : Nat) (acc : List Row),
      (processItems entries items idx acc).length ≤ acc.length + items.length := by
  intro items
  induction items with
  | nil => intro idx acc; simp [processItems]
  | cons item rest ih =>
    intro idx acc
    cases hstep : processItem entries idx item with
    | okRow r =>
      rw [processItems_cons_ok entries item rest idx acc r hstep]
      have := ih (idx + 1) (acc ++ [r])
      simp only [List.length_append, List.length_cons, List.length_nil] at this ⊢
      omega
    | skip =>
      rw [processItems_cons_skip entries item rest idx acc hstep]
      have := ih (idx + 1) acc
      simp only [List.length_cons]
      omega
    | fatal =>
      rw [processItems_cons_fatal entries item rest idx acc hstep]
      simp only [List.length_cons]
      omega

/-- Inversion: a produced row carries the id the entry map resolved for its
1-based index, and that id passed the falsiness test. -/
theorem processItem_okRow_inv (entries : List Entry) (idx : Nat) (item : Json) (r : Row)
    (h : processItem entries idx item = .okRow r) :
    (entryMap entries).lookup (idx + 1) = some r.entry_id ∧ r.entry_id ≠ 0 := by
  cases hl : (entryMap entries).lookup (idx + 1) with
  | none => rw [processItem_none entries idx item hl] at h; simp at h
  | some entry_id =>
    rw [processItem_some entries idx item entry_id hl] at h
    by_cases h0 : entry_id = 0
    · rw [if_pos h0] at h; simp at h
    · rw [if_neg h0] at h
      cases item with
      | obj fs =>
        cases hv : articleResponseOfFields fs with
        | ok v =>
          simp only [hv] at h
          simp at h
          subst h
          exact ⟨rfl, h0⟩
        | error e => simp only [hv] at h; simp at h
      | null => simp at h
      | bool b => simp at h
      | num n => simp at h
      | str s => simp at h
      | arr l => simp at h

/-- Splitting the item loop at a fatal-free first half. -/
theorem processItems_append (entries : List Entry) :
    ∀ (l1 l2 : List Json) (idx : Nat) (acc : List Row),
      noFatal entries idx l1 = true →
      processItems entries (l1 ++ l2) idx acc =
        processItems entries l2 (idx + l1.length) (processItems entries l1 idx acc) := by
  intro l1
  induction l1 with
  | nil => intro l2 idx acc _; simp [processItems]
  | cons item rest ih =>
    intro l2 idx acc hnf
    rw [List.cons_append]
    cases hstep : processItem entries idx item with
    | okRow r =>
      simp only [noFatal, hstep] at hnf
      rw [processItems_cons_ok entries item (rest ++ l2) idx acc r hstep,
        processItems_cons_ok entries item rest idx acc r hstep,
        ih l2 (idx + 1) (acc ++ [r]) hnf]
      congr 1
      simp only [List.length_cons]
      omega
    | skip =>
      simp only [noFatal, hstep] at hnf
      rw [processItems_cons_skip entries item (rest ++ l2) idx acc hstep,
        processItems_cons_skip entries item rest idx acc hstep,
        ih l2 (idx + 1) acc hnf]
      congr 1
      simp only [List.length_cons]
      omega
    | fatal =>
      simp only [noFatal, hstep] at hnf
      simp at hnf

/-- An object item that fails pydantic validation is always skipped. -/
theorem processItem_obj_invalid (entries : List Entry) (idx : Nat)
    (fs : List (String × Json)) (h : articleResponseOfFields fs = .error ()) :
    processItem entries idx (Json.obj fs) = .skip := by
  cases hl : (entryMap entries).lookup (idx + 1) with
  | none => exact processItem_none entries idx _ hl
  | some entry_id =>
    rw [processItem_some entries idx _ entry_id hl]
    by_cases h0 : entry_id = 0
    · rw [if_pos h0]
    · rw [if_neg h0]
      simp [h]

/-- The entry map agrees with positional indexing of the id column. -/
theorem entryMap_lookup_map (es : List Entry) (i : Nat) :
    (entryMap es).lookup (i + 1) = (es.map Entry.id)[i]? := by
  rw [entryMap_lookup, List.getElem?_map]

/-- Every row the item loop emits, beyond the accumulator, was resolved by the
entry map at the 1-based index of the item it came from. -/
theorem processItems_mem (entries : List Entry) :
    ∀ (items : List Json) (idx : Nat) (acc : List Row) (r : Row),
      r ∈ processItems entries items idx acc →
      r ∈ acc ∨ ∃ j, j < items.length ∧
        (entryMap entries).lookup (idx + j + 1) = some r.entry_id ∧ r.entry_id ≠ 0 := by
  intro items
  induction items with
  | nil =>
    intro idx acc r h
    simp only [processItems] at h
    exact Or.inl h
  | cons item rest ih =>
    intro idx acc r h
    cases hstep : processItem entries idx item with
    | okRow r0 =>
      rw [processItems_cons_ok entries item rest idx acc r0 hstep] at h
      rcases ih (idx + 1) (acc ++ [r0]) r h with hmem | ⟨j, hj, hlk, hne⟩
      · rcases List.mem_append.1 hmem with h1 | h2
        · exact Or.inl h1
        · have hr0 : r = r0 := by simpa using h2
          subst hr0
          obtain ⟨hl0, hne0⟩ := processItem_okRow_inv entries idx item r hstep
          exact Or.inr ⟨0, by simp, by simpa using hl0, hne0⟩
      · refine Or.inr ⟨j + 1, ?_, ?_, hne⟩
        · simp only [List.length_cons]; omega
        · rw [show idx + (j + 1) + 1 = idx + 1 + j + 1 by omega]
          exact hlk
    | skip =>
      rw [processItems_cons_skip entries item rest idx acc hstep] at h
      rcases ih (idx + 1) acc r h with hmem | ⟨j, hj, hlk, hne⟩
      · exact Or.inl hmem
      · refine Or.inr ⟨j + 1, ?_, ?_, hne⟩
        · simp only [List.length_cons]; omega
        · rw [show idx + (j + 1) + 1 = idx + 1 + j + 1 by omega]
          exact hlk
    | fatal =>
      rw [processItems_cons_fatal entries item rest idx acc hstep] at h
      exact Or.inl h

/-- When the batch's entry ids are pairwise distinct, the item loop never
produces two rows with the same entry id. -/
theorem processItems_ids_nodup (entries : List Entry)
    (hnd : (entries.map Entry.id).Nodup) :
    ∀ (items : List Json) (idx : Nat) (acc : List Row),
      (acc.map Row.entry_id).Nodup →
      (∀ r ∈ acc, ∃ j, j < idx ∧ (entryMap entries).lookup (j + 1) = some r.entry_id) →
      ((processItems entries items idx acc).map Row.entry_id).Nodup := by
  intro items
  induction items with
  | nil =>
    intro idx acc h1 _
    simpa [processItems] using h1
  | cons item rest ih =>
    intro idx acc h1 h2
    cases hstep : processItem entries idx item with
    | okRow r0 =>
      obtain ⟨hl0, hne0⟩ := processItem_okRow_inv entries idx item r0 hstep
      rw [processItems_cons_ok entries item rest idx acc r0 hstep]
      refine ih (idx + 1) (acc ++ [r0]) ?_ ?_
      · rw [List.map_append]
        refine List.Nodup.append h1 (by simp) ?_
        intro x hx hx0
        have hx0' : x = r0.entry_id := by simpa using hx0
        subst hx0'
        obtain ⟨a, ha, haid⟩ := List.mem_map.1 hx
        obtain ⟨j, hj, hlkj⟩ := h2 a ha
        rw [haid] at hlkj
        rw [entryMap_lookup_map] at hlkj hl0
        have hjlt : j < (entries.map Entry.id).length := by
          rcases List.getElem?_eq_some.1 hlkj with ⟨hlt, _⟩
          exact hlt
        have : j = idx := List.getElem?_inj hjlt hnd (by rw [hlkj, hl0])
        omega
      · intro r hr
        rcases List.mem_append.1 hr with hmem | hmem
        · obtain ⟨j, hj, hlk⟩ := h2 r hmem
          exact ⟨j, by omega, hlk⟩
        · have : r = r0 := by simpa using hmem
          subst this
          exact ⟨idx, by omega, hl0⟩
    | skip =>
      rw [processItems_cons_skip entries item rest idx acc hstep]
      refine ih (idx + 1) acc h1 ?_
      intro r hr
      obtain ⟨j, hj, hlk⟩ := h2 r hr
      exact ⟨j, by omega, hlk⟩
    | fatal =>
      rw [processItems_cons_fatal entries item rest idx acc hstep]
      exact h1

/-- Every successful return of `process_batch` is either the empty list from
one of the guard branches or the output of the item loop over the decoded
slice, started with an empty accumulator. -/
theorem process_batch_ok_shape (env : Env) (entries : List Entry) (rs : List Row)
    (h : process_batch env entries = .ok rs) :
    rs = [] ∨ ∃ data : List Json,
      rs = processItems entries (data.take entries.length) 0 [] := by
  unfold process_batch at h
  dsimp only at h
  repeat' split at h
  all_goals simp at h
  all_goals first
    | exact Or.inl h
    | exact Or.inl h.symm
    | exact Or.inr ⟨_, h⟩
    | exact Or.inr ⟨_, h.symm⟩

/-! ### Lemmas about rendering and validation -/

/-- Unfolding of `String.join` on a cons. -/
theorem stringJoin_cons (s : String) (l : List String) :
    String.join (s :: l) = s ++ String.join l := by
  cases s with
  | mk d => rw [String.join_eq, String.join_eq]; rfl

/-- The rendering loop concatenates one block per enumerated entry, in order. -/
theorem buildBatchInputFrom_join (es : List Entry) :
    ∀ k : Nat, buildBatchInputFrom k es =
      String.join ((List.enumFrom k es).map (fun p => renderBlock p.1 p.2)) := by
  induction es with
  | nil => intro k; rfl
  | cons e es ih =>
    intro k
    simp only [buildBatchInputFrom, List.enumFrom, List.map_cons, stringJoin_cons]
    rw [ih (k + 1)]

/-- Inversion of a successful pydantic validation: every field of the result
is what its field validator returned. -/
theorem articleResponse_ok_inv (fs : List (String × Json)) (v : ArticleResponse)
    (h : articleResponseOfFields fs = .ok v) :
    getStrField fs "translated_title" = .ok v.translated_title ∧
    getStrField fs "translated_description" = .ok v.translated_description ∧
    getKeywordsField fs = .ok v.keywords ∧
    getStrField fs "sentiment" = .ok v.sentiment ∧
    getStrField fs "category" = .ok v.category := by
  unfold articleResponseOfFields at h
  cases h1 : getStrField fs "translated_title" with
  | error e => simp only [h1] at h; exact Except.noConfusion h
  | ok tt =>
    simp only [h1] at h
    cases h2 : getStrField fs "translated_description" with
    | error e => simp only [h2] at h; exact Except.noConfusion h
    | ok td =>
      simp only [h2] at h
      cases h3 : getKeywordsField fs with
      | error e => simp only [h3] at h; exact Except.noConfusion h
      | ok kw =>
        simp only [h3] at h
        cases h4 : getStrField fs "sentiment" with
        | error e => simp only [h4] at h; exact Except.noConfusion h
        | ok se =>
          simp only [h4] at h
          cases h5 : getStrField fs "category" with
          | error e => simp only [h5] at h; exact Except.noConfusion h
          | ok ca =>
            simp only [h5] at h
            simp at h
            subst h
            exact ⟨rfl, rfl, rfl, rfl, rfl⟩

/-- A missing `str` field validates to the empty-string default. -/
theorem getStrField_missing (fs : List (String × Json)) (name : String)
    (h : fs.lookup name = none) : getStrField fs name = .ok "" := by
  unfold getStrField; rw [h]

/-- A missing `keywords` field validates to the empty-list default. -/
theorem getKeywordsField_missing (fs : List (String × Json))
    (h : fs.lookup "keywords" = none) : getKeywordsField fs = .ok [] := by
  unfold getKeywordsField; rw [h]

/-! ### Lemmas about the store -/

/-- After `mark_as_processed`, every row whose id is among the given ids has
`processed = TRUE`. -/
theorem mark_as_processed_mem (s : Store) (ids : List Nat) (e : StoreEntry)
    (he : e ∈ (mark_as_processed s ids).entries) (hid : e.id ∈ ids) :
    e.processed = true := by
  unfold mark_as_processed at he
  simp only [List.mem_map] at he
  obtain ⟨e0, _, heq⟩ := he
  by_cases h0 : e0.id ∈ ids
  · rw [if_pos h0] at heq
    rw [← heq]
  · rw [if_neg h0] at heq
    subst heq
    exact absurd hid h0

/-- Marking does not touch the analysed-results table. -/
theorem mark_as_processed_analysed (s : Store) (ids : List Nat) :
    (mark_as_processed s ids).analysed = s.analysed := rfl

/-! ### Claim theorems -/

/-- Helper: the analysed table after a successful Persist step. -/
theorem persistStep_none_analysed (s : Store) (ids : List Nat) (rows : List Row) :
    (persistStep s ids rows none).analysed = s.analysed ++ rows := by
  unfold persistStep
  by_cases hd : rows.isEmpty
  · simp [hd, mark_as_processed_analysed, List.isEmpty_iff.1 hd]
  · simp [hd, mark_as_processed_analysed, insert_analysed_entries]

/-- C1: a successful Persist step marks every fetched entry identifier as
processed (also those without an AnalysisResult candidate), inserts exactly
the returned candidates, and the loop step applies it to precisely the
fetched batch's identifiers, as one atomic store update. -/
theorem persist_success_marks_batch_and_inserts_results
    (s : Store) (entry_ids : List Nat) (analysed_data : List Row) :
    ((persistStep s entry_ids analysed_data none).analysed
        = s.analysed ++ analysed_data) ∧
    (∀ e ∈ (persistStep s entry_ids analysed_data none).entries,
        e.id ∈ entry_ids → e.processed = true) ∧
    (fetch_unprocessed_entries s BATCH_SIZE ≠ [] →
      loopIteration s false analysed_data none =
        .next (persistStep s ((fetch_unprocessed_entries s BATCH_SIZE).map Entry.id)
          analysed_data none)) := by
  refine ⟨persistStep_none_analysed s entry_ids analysed_data, ?_, ?_⟩
  · intro e he hid
    unfold persistStep at he
    exact mark_as_processed_mem _ entry_ids e he hid
  · intro hne
    unfold loopIteration
    rw [if_neg (by simp)]
    dsimp only
    rw [if_neg (fun hemp => hne (List.isEmpty_iff.1 hemp))]

/-- Witness for C1 at a concrete store, batch and result row. -/
theorem persist_success_witness :
    (persistStep store1 [1] [row1] none).analysed = store1.analysed ++ [row1] ∧
    ((⟨1, some "A", some "d1", true⟩ : StoreEntry).processed = true) ∧
    loopIteration store1 false [row1] none =
      .next (persistStep store1 [1] [row1] none) := by
  have h := persist_success_marks_batch_and_inserts_results store1 [1] [row1]
  refine ⟨h.1, ?_, ?_⟩
  · exact h.2.1 ⟨1, some "A", some "d1", true⟩ (by decide) (by decide)
  · have h3 := h.2.2 (by decide)
    rw [h3]
    rfl

/-- C2: a store error during Persist rolls the transaction back — the store
is unchanged, no entry is marked processed and no row is inserted — the loop
continues to the next poll, and a failed attempt followed by a successful
one equals a single successful attempt. -/
theorem persist_error_rolls_back (s : Store) (entry_ids : List Nat)
    (analysed_data : List Row) (e : DbErr) :
    persistStep s entry_ids analysed_data (some e) = s ∧
    (fetch_unprocessed_entries s BATCH_SIZE ≠ [] →
      loopIteration s false analysed_data (some e) = .next s) ∧
    persistStep (persistStep s entry_ids analysed_data (some e)) entry_ids analysed_data none
      = persistStep s entry_ids analysed_data none := by
  refine ⟨rfl, ?_, rfl⟩
  intro hne
  unfold loopIteration
  rw [if_neg (by simp)]
  dsimp only
  rw [if_neg (fun hemp => hne (List.isEmpty_iff.1 hemp))]
  rfl

/-- Witness for C2 at a concrete store and batch. -/
theorem persist_error_witness :
    persistStep store1 [1] [row1] (some .duringCommit) = store1 ∧
    loopIteration store1 false [row1] (some .duringCommit) = .next store1 ∧
    persistStep (persistStep store1 [1] [row1] (some .duringCommit)) [1] [row1] none
      = persistStep store1 [1] [row1] none := by
  have h := persist_error_rolls_back store1 [1] [row1] .duringCommit
  exact ⟨h.1, h.2.1 (by decide), h.2.2⟩

/-- C5: the number of AnalysisResult candidates returned by `process_batch`
never exceeds the input batch size, and for the empty input batch the
function is a no-op returning the empty result sequence. -/
theorem process_batch_result_bounded (env : Env) (entries : List Entry) :
    (∀ rs : List Row, process_batch env entries = .ok rs → rs.length ≤ entries.length) ∧
    process_batch env [] = .ok [] := by
  constructor
  · intro rs h
    rcases process_batch_ok_shape env entries rs h with rfl | ⟨data, rfl⟩
    · simp
    · have h1 := processItems_length entries (data.take entries.length) 0 []
      have h2 : (data.take entries.length).length ≤ entries.length := by
        rw [List.length_take]; omega
      simp only [List.length_nil] at h1
      omega
  · rfl

/-- Witness for C5 at a concrete environment and batch. -/
theorem process_batch_result_bounded_witness :
    ([row1] : List Row).length ≤ ([e1] : List Entry).length :=
  (process_batch_result_bounded envT [e1]).1 [row1] rfl

/-- C8: a cleaned response that decodes as valid JSON of any non-array shape
yields zero candidates and no exception past the processor boundary. -/
theorem process_batch_non_array_json_yields_empty (env : Env) (entries : List Entry)
    (tmpl raw : String) (j : Json)
    (htmpl : env.template = .found tmpl)
    (hapi : apiCallWithRetry env.attemptOutcome 0 max_retries = .ok raw)
    (hjson : env.jsonLoads (stripFences raw) = some j)
    (hnarr : ∀ l : List Json, j ≠ .arr l) :
    process_batch env entries = .ok [] := by
  unfold process_batch
  split
  · rfl
  · rw [htmpl]
    dsimp only
    split
    · rfl
    · split
      · rfl
      · rw [hapi]
        dsimp only
        rw [hjson]
        cases j with
        | null => rfl
        | bool b => rfl
        | num n => rfl
        | str s0 => rfl
        | arr l => exact absurd rfl (hnarr l)
        | obj fs => rfl

/-- Witness for C8: a decoded JSON object produces an empty result. -/
theorem process_batch_non_array_witness :
    process_batch envObj [e1] = .ok [] :=
  process_batch_non_array_json_yields_empty envObj [e1] "\x7bentries\x7d" "x" (.obj [])
    rfl rfl rfl (fun _ h => Json.noConfusion h)

/-- C9: the rendered batch text is the concatenation, in input order, of one
fixed block per entry carrying the 1-based index, the title (defaulting to
"Untitled") and the description (defaulting to "No description"), and every
1-based index is mapped to the corresponding entry's store identifier. -/
theorem batch_rendering_blocks_and_map (entries : List Entry) :
    buildBatchInput entries =
      String.join ((entries.enum).map (fun p =>
        "Entry " ++ toString (p.1 + 1) ++ ":\n- Title: " ++ p.2.title.getD "Untitled" ++
          "\n- Description: " ++ p.2.description.getD "No description" ++ "\n\n")) ∧
    ∀ (i : Nat) (h : i < entries.length),
      (entryMap entries).lookup (i + 1) = some entries[i].id := by
  constructor
  · rw [buildBatchInput, buildBatchInputFrom_join entries 0]
    rfl
  · intro i h
    exact entryMap_lookup_of_lt entries i h

/-- Witness for C9 at a concrete two-entry batch with null columns. -/
theorem batch_rendering_witness :
    buildBatchInput [e1, e2] =
      "Entry 1:\n- Title: A\n- Description: d1\n\nEntry 2:\n- Title: Untitled\n- Description: No description\n\n" ∧
    (entryMap [e1, e2]).lookup (1 + 1) = some 2 := by
  have h := batch_rendering_blocks_and_map [e1, e2]
  constructor
  · rw [h.1]; rfl
  · exact h.2 1 (by decide)

/-- C10: when the input batch has pairwise-distinct identifiers, each entry
identifier occurs at most once among the candidates one `process_batch` call
returns. -/
theorem process_batch_at_most_one_result_per_entry (env : Env) (entries : List Entry)
    (rs : List Row) (hnd : (entries.map Entry.id).Nodup)
    (h : process_batch env entries = .ok rs) :
    (rs.map Row.entry_id).Nodup := by
  rcases process_batch_ok_shape env entries rs h with rfl | ⟨data, rfl⟩
  · simp
  · exact processItems_ids_nodup entries hnd (data.take entries.length) 0 []
      (by simp) (by simp)

/-- Witness for C10 at a concrete environment and batch. -/
theorem process_batch_at_most_one_result_witness :
    (([row1] : List Row).map Row.entry_id).Nodup :=
  process_batch_at_most_one_result_per_entry envT [e1] [row1] (by decide) rfl

/-- C4 counterexample: for a batch whose entry has store id 0, the rendering
map resolves index 1, the decoded item is itself valid, and yet the item is
skipped (Python falsiness of `entry_id` 0), so the claim "skipped only when
it has no resolvable mapping" fails. -/
theorem item_with_resolvable_zero_id_is_skipped :
    (entryMap [entry0]).lookup (0 + 1) = some entry0.id ∧
    articleResponseOfFields [] = .ok ⟨"", "", [], "", ""⟩ ∧
    processItem [entry0] 0 (Json.obj []) = .skip ∧
    processItems [entry0] [Json.obj []] 0 [] = [] :=
  ⟨rfl, rfl, rfl, rfl⟩

/-- C4 (amended): each in-range decoded item resolves through the rendering
map to the identifier of the corresponding input entry; a resolved identifier
equal to 0 is treated as unresolvable and the item is skipped; a produced row
carries exactly the resolved identifier; and a skip is never fatal — the rest
of the batch is still processed. -/
theorem item_resolution_via_entry_map (entries : List Entry) (i : Nat)
    (h : i < entries.length) (item : Json) :
    ((entryMap entries).lookup (i + 1) = some entries[i].id) ∧
    (entries[i].id = 0 → processItem entries i item = .skip) ∧
    (entries[i].id ≠ 0 → ∀ r : Row, processItem entries i item = .okRow r →
      r.entry_id = entries[i].id) ∧
    (∀ (rest : List Json) (acc : List Row), processItem entries i item = .skip →
      processItems entries (item :: rest) i acc = processItems entries rest (i + 1) acc) := by
  have hl := entryMap_lookup_of_lt entries i h
  refine ⟨hl, ?_, ?_, ?_⟩
  · intro h0
    rw [processItem_some entries i item _ hl, if_pos h0]
  · intro _ r hr
    obtain ⟨hl', _⟩ := processItem_okRow_inv entries i item r hr
    rw [hl] at hl'
    exact (Option.some_inj.1 hl').symm
  · intro rest acc hskip
    exact processItems_cons_skip entries item rest i acc hskip

/-- Witness for the amended C4 at a concrete batch and item. -/
theorem item_resolution_witness :
    (entryMap [e1]).lookup (0 + 1) = some 1 ∧
    row1.entry_id = 1 ∧
    processItems [entry0] [Json.obj []] 0 [] = processItems [entry0] [] (0 + 1) [] := by
  have h := item_resolution_via_entry_map [e1] 0 (by decide) (Json.obj [])
  have h0 := item_resolution_via_entry_map [entry0] 0 (by decide) (Json.obj [])
  exact ⟨h.1, h.2.2.1 (by decide) row1 rfl, h0.2.2.2 [] [] (h0.2.1 rfl)⟩

/-- C3 counterexample: with a prompt file that exists but cannot be read
(any `OSError` other than `FileNotFoundError`), the exception escapes
`process_batch` — only `FileNotFoundError` is caught at line 150. -/
theorem unreadable_template_escapes_processor :
    process_batch envReadErr [⟨1, none, none⟩] = .error () := rfl

/-- C3 (amended): a missing template, a blank rendered prompt, an API failure
exhausting retries, or an undecodable response each yield the empty result
sequence without an exception; an unreadable (present) template raises out of
the processor; and an exception while handling a decoded item ends the batch
early with the results accumulated before it. -/
theorem process_batch_exception_handling (env : Env) (entries : List Entry) :
    (env.template = .notFound → process_batch env entries = .ok []) ∧
    (entries ≠ [] → env.template = .readError → process_batch env entries = .error ()) ∧
    (∀ tmpl, env.template = .found tmpl →
      pyStrip (formatTemplate tmpl (buildBatchInput entries)) = "" →
      process_batch env entries = .ok []) ∧
    (env.template ≠ .readError →
      apiCallWithRetry env.attemptOutcome 0 max_retries = .error () →
      process_batch env entries = .ok []) ∧
    (∀ raw, env.template ≠ .readError →
      apiCallWithRetry env.attemptOutcome 0 max_retries = .ok raw →
      env.jsonLoads (stripFences raw) = none →
      process_batch env entries = .ok []) ∧
    (∀ (l1 : List Json) (item : Json) (l2 : List Json) (idx : Nat) (acc : List Row),
      noFatal entries idx l1 = true →
      processItem entries (idx + l1.length) item = .fatal →
      processItems entries (l1 ++ item :: l2) idx acc = processItems entries l1 idx acc) := by
  refine ⟨?_, ?_, ?_, ?_, ?_, ?_⟩
  · intro hnf
    unfold process_batch
    split
    · rfl
    · rw [hnf]
  · intro hne hre
    unfold process_batch
    rw [if_neg (fun hemp => hne (List.isEmpty_iff.1 hemp))]
    rw [hre]
  · intro tmpl htmpl hblank
    simp [process_batch, htmpl, hblank]
  · intro hnre hapi
    cases htm : env.template with
    | notFound => simp [process_batch, htm]
    | readError => exact absurd htm hnre
    | found tmpl => simp [process_batch, htm, hapi]
  · intro raw hnre hapi hjson
    cases htm : env.template with
    | notFound => simp [process_batch, htm]
    | readError => exact absurd htm hnre
    | found tmpl => simp [process_batch, htm, hapi, hjson]
  · intro l1 item l2 idx acc hnf hfat
    rw [processItems_append entries l1 (item :: l2) idx acc hnf]
    exact processItems_cons_fatal entries item l2 (idx + l1.length) _ hfat

/-- Witness for the amended C3 at concrete environments. -/
theorem process_batch_exception_handling_witness :
    process_batch envNotFound [e1] = .ok [] ∧
    process_batch envReadErr [e2] = .error () := by
  have hA := (process_batch_exception_handling envNotFound [e1]).1 rfl
  have hB := (process_batch_exception_handling envReadErr [e2]).2.1
    (by decide) rfl
  exact ⟨hA, hB⟩

/-- C6: on a decoded array whose length differs from the batch length,
`process_batch` does not fail: it iterates over the slice of exactly
`min (decoded length) (batch length)` items, so every candidate comes from a
position inside that slice and entries beyond it yield no candidate. -/
theorem process_batch_length_mismatch_iterates_min (env : Env) (entries : List Entry)
    (tmpl raw : String) (data : List Json)
    (hne : entries ≠ [])
    (htmpl : env.template = .found tmpl)
    (hp : pyStrip (formatTemplate tmpl (buildBatchInput entries)) ≠ "")
    (hapi : apiCallWithRetry env.attemptOutcome 0 max_retries = .ok raw)
    (hjson : env.jsonLoads (stripFences raw) = some (.arr data))
    (_hlen : data.length ≠ entries.length) :
    ∃ rs : List Row, process_batch env entries = .ok rs ∧
      (data.take entries.length).length = min data.length entries.length ∧
      rs.length ≤ min data.length entries.length ∧
      ∀ r ∈ rs, ∃ i : Nat, i < min data.length entries.length ∧
        ∃ h : i < entries.length, r.entry_id = entries[i].id := by
  have htake : (data.take entries.length).length = min data.length entries.length := by
    rw [List.length_take, Nat.min_comm]
  by_cases hb : pyStrip (buildBatchInput entries) = ""
  · refine ⟨[], ?_, htake, by simp, by simp⟩
    simp [process_batch, htmpl, hb]
  · refine ⟨processItems entries (data.take entries.length) 0 [], ?_, htake, ?_, ?_⟩
    · simp [process_batch, List.isEmpty_iff, hne, htmpl, hb, hp, hapi, hjson]
    · have h1 := processItems_length entries (data.take entries.length) 0 []
      simp only [List.length_nil] at h1
      rw [htake] at h1
      omega
    · intro r hr
      rcases processItems_mem entries (data.take entries.length) 0 [] r hr with
        habs | ⟨j, hj, hlk, _⟩
      · simp at habs
      · simp only [Nat.zero_add] at hlk
        rw [entryMap_lookup] at hlk
        cases hg : entries[j]? with
        | none => rw [hg] at hlk; simp at hlk
        | some e =>
          rw [hg] at hlk
          simp only [Option.map_some'] at hlk
          obtain ⟨hjlt, hgel⟩ := List.getElem?_eq_some.1 hg
          refine ⟨j, ?_, hjlt, ?_⟩
          · rw [htake] at hj
            exact hj
          · rw [hgel]
            exact (Option.some_inj.1 hlk).symm

/-- Witness for C6: a one-item decoded array against a two-entry batch. -/
theorem process_batch_length_mismatch_witness :
    ∃ rs : List Row, process_batch envT [e1, e2] = .ok rs ∧
      ((([Json.obj []] : List Json).take ([e1, e2] : List Entry).length).length
        = min ([Json.obj []] : List Json).length ([e1, e2] : List Entry).length) ∧
      rs.length ≤ min ([Json.obj []] : List Json).length ([e1, e2] : List Entry).length ∧
      ∀ r ∈ rs, ∃ i : Nat,
        i < min ([Json.obj []] : List Json).length ([e1, e2] : List Entry).length ∧
        ∃ h : i < ([e1, e2] : List Entry).length, r.entry_id = ([e1, e2] : List Entry)[i].id :=
  process_batch_length_mismatch_iterates_min envT [e1, e2] "\x7bentries\x7d" "x"
    [Json.obj []] (by decide) rfl (by decide) rfl rfl (by decide)

/-- C7: a missing optional field of a decoded object is filled with its
documented default (empty string, or empty list for `keywords`) rather than
erroring, and an object whose field has the wrong type invalidates only that
item — it is skipped and every other item of the batch is still processed. -/
theorem validation_defaults_and_item_local_failure :
    (∀ fs : List (String × Json),
      fs.lookup "translated_title" = none →
      fs.lookup "translated_description" = none →
      fs.lookup "keywords" = none →
      fs.lookup "sentiment" = none →
      fs.lookup "category" = none →
      articleResponseOfFields fs = .ok ⟨"", "", [], "", ""⟩) ∧
    (∀ (fs : List (String × Json)) (v : ArticleResponse),
      articleResponseOfFields fs = .ok v →
      (fs.lookup "translated_title" = none → v.translated_title = "") ∧
      (fs.lookup "translated_description" = none → v.translated_description = "") ∧
      (fs.lookup "keywords" = none → v.keywords = []) ∧
      (fs.lookup "sentiment" = none → v.sentiment = "") ∧
      (fs.lookup "category" = none → v.category = "")) ∧
    (∀ (entries : List Entry) (l1 : List Json) (fs : List (String × Json)) (l2 : List Json)
      (idx : Nat) (acc : List Row),
      articleResponseOfFields fs = .error () →
      noFatal entries idx l1 = true →
      processItems entries (l1 ++ Json.obj fs :: l2) idx acc =
        processItems entries l2 (idx + l1.length + 1) (processItems entries l1 idx acc)) := by
  refine ⟨?_, ?_, ?_⟩
  · intro fs h1 h2 h3 h4 h5
    simp [articleResponseOfFields, getStrField_missing fs _ h1, getStrField_missing fs _ h2,
      getKeywordsField_missing fs h3, getStrField_missing fs _ h4, getStrField_missing fs _ h5]
  · intro fs v hok
    obtain ⟨i1, i2, i3, i4, i5⟩ := articleResponse_ok_inv fs v hok
    refine ⟨?_, ?_, ?_, ?_, ?_⟩
    · intro hm
      have := (getStrField_missing fs _ hm).symm.trans i1
      simpa using this.symm
    · intro hm
      have := (getStrField_missing fs _ hm).symm.trans i2
      simpa using this.symm
    · intro hm
      have := (getKeywordsField_missing fs hm).symm.trans i3
      simpa using this.symm
    · intro hm
      have := (getStrField_missing fs _ hm).symm.trans i4
      simpa using this.symm
    · intro hm
      have := (getStrField_missing fs _ hm).symm.trans i5
      simpa using this.symm
  · intro entries l1 fs l2 idx acc herr hnf
    rw [processItems_append entries l1 (Json.obj fs :: l2) idx acc hnf,
      processItems_cons_skip entries (Json.obj fs) l2 (idx + l1.length) _
        (processItem_obj_invalid entries _ fs herr)]

/-- Witness for C7: the all-defaults object, a default field under success,
and a wrongly-typed item skipped between two processed items. -/
theorem validation_defaults_witness :
    articleResponseOfFields [] = .ok ⟨"", "", [], "", ""⟩ ∧
    (⟨"t", "", [], "", ""⟩ : ArticleResponse).keywords = [] ∧
    processItems [e1, e2]
        [Json.obj [("sentiment", Json.num 3)], Json.obj []] 0 [] =
      processItems [e1, e2] [Json.obj []] (0 + 0 + 1) (processItems [e1, e2] [] 0 []) := by
  have h := validation_defaults_and_item_local_failure
  refine ⟨h.1 [] rfl rfl rfl rfl rfl, ?_, ?_⟩
  · exact (h.2.1 [("translated_title", Json.str "t")] ⟨"t", "", [], "", ""⟩ rfl).2.2.1 rfl
  · exact h.2.2 [e1, e2] [] [("sentiment", Json.num 3)] [Json.obj []] 0 [] rfl rfl

end RssAnalyser
